import Mathlib

/-!
A shallow embedding of the Agent-Handoff tool server core:

* `src/agent_handoff/tools/utility_tools.py` (`UtilityToolsHandler`):
  the path sandbox `_ensure_docs_path` and the document-store handlers
  `handle_read_file`, `handle_write_file`, `handle_append_file`,
  `handle_list_files`, `handle_search_files`;
* `src/agent_handoff/tools/workflow_tools.py` (`WorkflowToolsHandler`):
  the workflow state machine `handle_start_work`, `handle_plan_setup`,
  `handle_proceed`, `handle_report_issue`, `handle_end_job`;
* the tool dispatcher pattern of `src/agent_handoff/server.py` (`call_tool`):
  routing by tool name with an `UNKNOWN_TOOL` fallback.

Modelling conventions:

* The POSIX filesystem is a finite map from canonical absolute paths
  (lists of non-empty segments) to file contents, together with a list of
  directory paths.  Symbolic links are not modelled, so `Path.resolve()`
  becomes purely lexical `..`-elimination.
* Python strings are Lean `String`s; `len` is `String.length`,
  `str.lower()` maps `Char.toLower`, `str.strip()` drops ASCII whitespace
  from both ends.  All string primitives are reimplemented over the
  underlying character list so that concrete instances reduce in the kernel.
* Wall-clock timestamps (`started_at`, `completed_at`, progress and issue
  timestamps) are dropped: nothing in the behaviour depends on them, so a
  progress entry is modelled by its `work` text and an issue by its
  `(description, attempted_solutions)` pair.
* `uuid.uuid4()` in `handle_start_work` is external nondeterminism; the
  fresh identifier is passed in as an argument.
* Python raises and catches exceptions for filesystem faults; here the
  handlers branch directly on the filesystem model and the generic
  `except`-clauses become explicit `EXECUTION_ERROR` branches (writing file
  content over an existing directory, and `parent.mkdir` hitting an ancestor
  that exists as a regular file — see `FS.parentBlocked`).
* Free-text `instruction` fields of success responses are omitted; error
  `message` and `suggestion` texts are kept because precondition ordering
  claims distinguish the failures by them.
-/

namespace AgentHandoff

/-! ## String primitives (kernel-computable stand-ins for Python builtins) -/

/-- `p` is a literal string prefix of `s` — Python `s.startswith(p)`. -/
def strStartsWith (s p : String) : Bool := p.data.isPrefixOf s.data

/-- Split on the character `sep`, keeping empty chunks (Python `str.split(sep)`
behaviour for a one-character separator). -/
def splitCharGo (sep : Char) (acc : List Char) : List Char → List String
  | [] => [String.mk acc]
  | c :: rest =>
    if c = sep then String.mk acc :: splitCharGo sep [] rest
    else splitCharGo sep (acc ++ [c]) rest

def splitChar (sep : Char) (s : String) : List String := splitCharGo sep [] s.data

/-- Python `str.lower()` (ASCII case folding). -/
def pyLower (s : String) : String := String.mk (s.data.map Char.toLower)

/-- Python `str.strip()` restricted to ASCII whitespace. -/
def pyStrip (s : String) : String :=
  String.mk (((s.data.dropWhile Char.isWhitespace).reverse.dropWhile Char.isWhitespace).reverse)

/-- Python `str.splitlines()` for `\n`-separated text: no entry for a trailing
newline and no entry at all for the empty string. -/
def splitlinesGo (acc : List Char) : List Char → List String
  | [] => if acc.isEmpty then [] else [String.mk acc]
  | c :: rest =>
    if c = '\n' then String.mk acc :: splitlinesGo [] rest
    else splitlinesGo (acc ++ [c]) rest

def pySplitlines (s : String) : List String := splitlinesGo [] s.data

/-- Contiguous-sublist test on characters: `q` occurs inside `s`
(Python `q in s`). -/
def containsSub (q : List Char) : List Char → Bool
  | [] => q.isEmpty
  | c :: rest => q.isPrefixOf (c :: rest) || containsSub q rest

/-- Python `query.lower() in line.lower()`. -/
def lineMatches (query line : String) : Bool :=
  containsSub (pyLower query).data (pyLower line).data

/-- Python `str.endswith(suffix)`. -/
def strEndsWith (s suffix : String) : Bool := suffix.data.isSuffixOf s.data

/-! ## Paths

A canonical absolute path is a list of non-empty segments (no `.`, no `..`);
`pathStr` renders it the way `str(Path)` would. -/

/-- `str()` of an absolute POSIX path given by its segments. -/
def pathStr (segs : List String) : String := "/" ++ String.intercalate "/" segs

/-- A parsed user-supplied path: `pathlib` drops empty and `.` components. -/
structure PurePath where
  absolute : Bool
  segs : List String
deriving DecidableEq, Repr

def parsePath (s : String) : PurePath :=
  { absolute := strStartsWith s "/"
    segs := (splitChar '/' s).filter (fun seg => seg ≠ "" && seg ≠ ".") }

/-- Lexical canonicalization of an absolute path's segments: `..` pops the last
segment (and is a no-op at the root), mirroring `Path.resolve()` on a
symlink-free tree.  The input may still contain `..` but no `.` or `""`. -/
def resolveFrom (acc : List String) : List String → List String
  | [] => acc
  | seg :: rest =>
    if seg = ".." then resolveFrom acc.dropLast rest
    else resolveFrom (acc ++ [seg]) rest

/-- `UtilityToolsHandler._ensure_docs_path` (utility_tools.py lines 111-131).
`docsDir` is the canonical absolute docs root.  Returns the canonicalized
path, or the `ValueError` message the Python code raises. -/
def ensure_docs_path (docsDir : List String) (path : String) : Except String (List String) :=
  let requested := parsePath path
  -- Convert to absolute path relative to docs dir
  let full? : Except String (List String) :=
    if requested.absolute then
      -- requested_path.relative_to(docs_dir) succeeds iff the docs segments
      -- are a lexical prefix; docs_dir / relative then re-yields the input
      if docsDir.isPrefixOf requested.segs then .ok requested.segs
      else .error s!"Path {path} is outside docs directory"
    else .ok (docsDir ++ requested.segs)
  match full? with
  | .error e => .error e
  | .ok full =>
    -- Normalize and check for directory traversal
    let normalized := resolveFrom [] full
    if strStartsWith (pathStr normalized) (pathStr docsDir) then .ok normalized
    else .error s!"Path {path} attempts to escape docs directory"

/-- Whether a canonical path lies inside the root, segment-wise (the real
containment property, as opposed to the string-prefix test the code runs). -/
def underRoot (root p : List String) : Bool := root.isPrefixOf p

/-- Python `Path.suffix` of the final component, per CPython: the part from the
last `.`, provided that dot is neither the first nor the last character. -/
def pySuffix (p : List String) : String :=
  match p.getLast? with
  | none => ""
  | some name =>
    let chars := name.data
    let i := chars.length - 1 - (chars.reverse.indexOf '.')
    if chars.contains '.' && 0 < i && i < chars.length - 1 then
      String.mk (chars.drop i)
    else ""

/-! ## Filesystem model -/

structure FS where
  files : List (List String × String)
  dirs : List (List String)
deriving DecidableEq, Repr

def FS.lookup (fs : FS) (p : List String) : Option String :=
  (fs.files.find? (fun kv => kv.1 = p)).map (·.2)

def FS.isFile (fs : FS) (p : List String) : Bool := (fs.lookup p).isSome

def FS.isDir (fs : FS) (p : List String) : Bool := fs.dirs.contains p

/-- Python `Path.exists()`: file or directory. -/
def FS.exists (fs : FS) (p : List String) : Bool := fs.isFile p || fs.isDir p

/-- `Path.write_text`: replace the content if the file exists, else create it.
(`files` is a finite map up to ordering; the entry for `p` is re-bound.) -/
def FS.setFile (fs : FS) (p : List String) (content : String) : FS :=
  { fs with files := (p, content) :: fs.files.filter (fun kv => kv.1 ≠ p) }

/-- A proper ancestor of `p` exists as a regular file.  On POSIX,
`file_path.parent.mkdir(parents=True, exist_ok=True)` then raises
(`FileExistsError` when the parent itself is that file, `NotADirectoryError`
for a deeper ancestor) — `exist_ok` only suppresses the error for an existing
*directory* — and the handler's generic `except` reports `EXECUTION_ERROR`
with no filesystem change. -/
def FS.parentBlocked (fs : FS) (p : List String) : Bool :=
  ((List.range p.length).map p.take).any (fun d => fs.isFile d)

/-- The effect of a *successful* `file_path.parent.mkdir(parents=True,
exist_ok=True)` (no ancestor is a regular file, see `FS.parentBlocked`): all
proper prefixes of `p` become directories (`dirs` is a finite set; duplicates
are harmless). -/
def FS.addParents (fs : FS) (p : List String) : FS :=
  { fs with dirs := fs.dirs ++ (List.range p.length).map p.take }

/-- Immediate children of a directory. -/
def FS.childFiles (fs : FS) (d : List String) : List (List String × String) :=
  fs.files.filter (fun kv => kv.1.take d.length = d && kv.1.length = d.length + 1)

def FS.childDirs (fs : FS) (d : List String) : List (List String) :=
  fs.dirs.filter (fun q => q.take d.length = d && q.length = d.length + 1)

/-- `Path.rglob` pattern `*.{ext}` from `d`: descendant files whose last
segment ends with the extension. -/
def FS.rglobExt (fs : FS) (d : List String) (ext : String) : List (List String × String) :=
  fs.files.filter (fun kv =>
    kv.1.take d.length = d && d.length < kv.1.length && strEndsWith (kv.1.getLastD "") ext)

/-! ## Error envelope and tool responses -/

/-- `_create_error_response`: the `{error: {code, message, suggestion?}}`
envelope every failing tool call returns. -/
structure Err where
  code : String
  message : String
  suggestion : Option String
deriving DecidableEq, Repr

def mkErr (code message : String) : Err := ⟨code, message, none⟩

def mkErrS (code message suggestion : String) : Err := ⟨code, message, some suggestion⟩

structure ReadResp where
  path : String
  content : String
  size : Nat
deriving DecidableEq, Repr

structure WriteResp where
  path : String
  status : String
  size : Nat
  lines : Option Nat      -- absent on the alias branch
  warnings : List String  -- [] when the key is absent
deriving DecidableEq, Repr

structure AppendResp where
  path : String
  status : String
  appended_size : Nat
  total_size : Option Nat   -- absent on the alias branch
  total_lines : Option Nat  -- absent on the alias branch
  warnings : List String
deriving DecidableEq, Repr

structure SearchMatch where
  file : String
  line : Nat
  text : String
deriving DecidableEq, Repr

structure SearchResp where
  query : String
  search_path : String
  results : List SearchMatch
  total_matches : Nat
deriving DecidableEq, Repr

structure ListResp where
  path : String
  directories : List String
  files : List (String × Nat)
  file_count : Nat
  directory_count : Nat
  warnings : List String
deriving DecidableEq, Repr

/-! ## Document-store handlers (`UtilityToolsHandler`)

Each handler takes the canonical project root `pr` and docs root `docs`
(`self.project_root`, `self.docs_dir`) plus the current filesystem. -/

/-- The two hard-coded aliases for the handoff document. -/
def isAlias (path : String) : Bool := path = "../agentreadme.md" || path = "agentreadme.md"

def agentreadmePath (pr : List String) : List String := pr ++ ["agentreadme.md"]

def invalidPathSuggestion : String := "Use paths relative to docs directory only"

/-- `UtilityToolsHandler.handle_read_file`. -/
def handle_read_file (pr docs : List String) (fs : FS) (path : String) :
    Except Err ReadResp :=
  if isAlias path then
    match fs.lookup (agentreadmePath pr) with
    | none => .error (mkErr "FILE_NOT_FOUND" s!"File not found: {path}")
    | some content => .ok ⟨path, content, content.length⟩
  else
    match ensure_docs_path docs path with
    | .error e => .error (mkErrS "INVALID_PATH" e invalidPathSuggestion)
    | .ok fp =>
      if ¬ fs.exists fp then
        .error (mkErr "FILE_NOT_FOUND" s!"File not found: {path}")
      else if fs.isDir fp then
        .error (mkErrS "INVALID_PATH" s!"Path is a directory, not a file: {path}"
          "Use list_files to see directory contents")
      else
        let content := (fs.lookup fp).getD ""
        .ok ⟨path, content, content.length⟩

def non_doc_extensions : List String :=
  [".py", ".js", ".ts", ".java", ".cpp", ".c", ".h", ".go", ".rs", ".exe", ".bin", ".so", ".dll"]

def extWarning (ext verb : String) : String :=
  s!"WARNING: You are {verb} a {ext} file to the docs/ directory."

def longFileWarning (lines : Nat) : String :=
  s!"File is too long ({lines} lines). Consider splitting into multiple files (recommended <300 lines)."

/-- `UtilityToolsHandler.handle_write_file`. -/
def handle_write_file (pr docs : List String) (fs : FS) (path content : String) :
    FS × Except Err WriteResp :=
  if isAlias path then
    (fs.setFile (agentreadmePath pr) content, .ok ⟨path, "written", content.length, none, []⟩)
  else
    match ensure_docs_path docs path with
    | .error e => (fs, .error (mkErrS "INVALID_PATH" e invalidPathSuggestion))
    | .ok fp =>
      let ext := pyLower (pySuffix fp)
      let warnings := if non_doc_extensions.contains ext then [extWarning ext "writing"] else []
      if fs.parentBlocked fp then
        -- parent.mkdir raises when an ancestor exists as a regular file
        (fs, .error (mkErr "EXECUTION_ERROR" s!"Error writing file: {path}"))
      else if fs.isDir fp then
        -- write_text onto a directory raises, caught by the generic handler
        (fs, .error (mkErr "EXECUTION_ERROR" s!"Error writing file: {path}"))
      else
        let fs' := (fs.addParents fp).setFile fp content
        let line_count := (pySplitlines content).length
        let warnings := if line_count > 300 then warnings ++ [longFileWarning line_count] else warnings
        (fs', .ok ⟨path, "written", content.length, some line_count, warnings⟩)

/-- `UtilityToolsHandler.handle_append_file`. -/
def handle_append_file (pr docs : List String) (fs : FS) (path content : String) :
    FS × Except Err AppendResp :=
  if isAlias path then
    let ap := agentreadmePath pr
    match fs.lookup ap with
    | some existing =>
      (fs.setFile ap (existing ++ "\n" ++ content), .ok ⟨path, "appended", content.length, none, none, []⟩)
    | none =>
      (fs.setFile ap content, .ok ⟨path, "appended", content.length, none, none, []⟩)
  else
    match ensure_docs_path docs path with
    | .error e => (fs, .error (mkErrS "INVALID_PATH" e invalidPathSuggestion))
    | .ok fp =>
      let ext := pyLower (pySuffix fp)
      let warnings := if non_doc_extensions.contains ext then [extWarning ext "appending to"] else []
      if ¬ fs.exists fp then
        (fs, .error (mkErrS "FILE_NOT_FOUND" s!"Cannot append to non-existent file: {path}"
          "Use write_file to create a new file"))
      else if fs.isDir fp then
        -- read_text on a directory raises, caught by the generic handler
        (fs, .error (mkErr "EXECUTION_ERROR" s!"Error appending to file: {path}"))
      else
        let existing := (fs.lookup fp).getD ""
        let newContent := existing ++ "\n" ++ content
        let fs' := fs.setFile fp newContent
        let line_count := (pySplitlines newContent).length
        let warnings := if line_count > 300 then warnings ++ [longFileWarning line_count] else warnings
        (fs', .ok ⟨path, "appended", content.length, some newContent.length, some line_count, warnings⟩)

/-- Stable insertion sort by a Boolean `le` (Python `sorted` on the child
names; children of one directory compare by their final component). -/
def insertLe (le : String → String → Bool) (x : String) : List String → List String
  | [] => [x]
  | y :: ys => if le x y then x :: y :: ys else y :: insertLe le x ys

def sortNames (xs : List String) : List String :=
  xs.foldr (insertLe (fun a b => a ≤ b)) []

/-- Root-relative rendering: `str(item.relative_to(docs_dir))`. -/
def relToDocs (docs p : List String) : String := String.intercalate "/" (p.drop docs.length)

def manyFilesWarning (n : Nat) : String :=
  s!"Directory has too many files ({n} files). Consider splitting into subdirectories (recommended 8 files per directory)."

/-- `UtilityToolsHandler.handle_list_files`.  The directory iteration is
modelled by sorting the children's final names. -/
def handle_list_files (docs : List String) (fs : FS) (path : String) :
    Except Err ListResp :=
  match ensure_docs_path docs path with
  | .error e => .error (mkErrS "INVALID_PATH" e invalidPathSuggestion)
  | .ok dp =>
    if ¬ fs.exists dp then
      .error (mkErr "FILE_NOT_FOUND" s!"Directory not found: {path}")
    else if ¬ fs.isDir dp then
      .error (mkErrS "INVALID_PATH" s!"Path is not a directory: {path}"
        "Use read_file to read file contents")
    else
      let childNames := sortNames ((fs.childDirs dp ++ (fs.childFiles dp).map (·.1)).map (·.getLastD ""))
      let dirNames := childNames.filter (fun n => fs.isDir (dp ++ [n]))
      let fileNames := childNames.filter (fun n => ¬ fs.isDir (dp ++ [n]))
      let directories := dirNames.map (fun n => relToDocs docs (dp ++ [n]))
      let files := fileNames.map (fun n =>
        (relToDocs docs (dp ++ [n]), ((fs.lookup (dp ++ [n])).getD "").length))
      let warnings := if files.length > 8 then [manyFilesWarning files.length] else []
      .ok ⟨path, directories, files, files.length, directories.length, warnings⟩

/-- Matches of `query` in one file (`search_in_file`). -/
def searchInFile (docs : List String) (query : String) (fp : List String) (content : String) :
    List SearchMatch :=
  ((pySplitlines content).enumFrom 1).filterMap (fun li =>
    if lineMatches query li.2 then
      some ⟨relToDocs docs fp, li.1, pyStrip li.2⟩
    else none)

/-- The files `handle_search_files` visits under a directory: the `*.md`,
`*.txt`, `*.json` recursive globs, in that order. -/
def searchedFiles (fs : FS) (d : List String) : List (List String × String) :=
  fs.rglobExt d ".md" ++ fs.rglobExt d ".txt" ++ fs.rglobExt d ".json"

/-- `UtilityToolsHandler.handle_search_files`. -/
def handle_search_files (docs : List String) (fs : FS) (query path : String) :
    Except Err SearchResp :=
  match ensure_docs_path docs path with
  | .error e => .error (mkErrS "INVALID_PATH" e invalidPathSuggestion)
  | .ok sp =>
    if ¬ fs.exists sp then
      .error (mkErr "FILE_NOT_FOUND" s!"Search path not found: {path}")
    else
      let results :=
        if fs.isFile sp then
          searchInFile docs query sp ((fs.lookup sp).getD "")
        else
          (searchedFiles fs sp).flatMap (fun kv => searchInFile docs query kv.1 kv.2)
      .ok ⟨query, path, results, results.length⟩

/-! ## Workflow state machine (`WorkflowToolsHandler`) -/

/-- `WorkflowState` (workflow_tools.py lines 15-20).  `IDLE` is represented by
the absence of a current session pointer, as in the code. -/
inductive WState
  | work_started
  | plan_submitted
  | in_progress
deriving DecidableEq, Repr

def WState.str : WState → String
  | .work_started => "work_started"
  | .plan_submitted => "plan_submitted"
  | .in_progress => "in_progress"

/-- One session record of `active_sessions`.  The Python dict gains the keys
`plan_steps` / `completed_steps` / `current_step_index` only at `plan_setup`
and `summary` / `agentreadme_content` only at `end_job`; every read uses
`.get` with defaults `[]` / `[]` / `0`, so absent keys are modelled by those
defaults and by `Option` for the completion fields. -/
structure Session where
  state : WState
  user_goal : String
  plan_steps : List String
  completed_steps : List String
  current_step_index : Nat
  progress : List String
  issues : List (String × String)
  summary : Option String
  agentreadme_content : Option String
deriving DecidableEq, Repr

def newSession (goal : String) : Session :=
  ⟨.work_started, goal, [], [], 0, [], [], none, none⟩

/-- Dictionary update keyed by session id (insertion order kept, as a Python
dict does). -/
def updateAssoc (l : List (String × Session)) (k : String) (v : Session) :
    List (String × Session) :=
  if (l.find? (fun kv => kv.1 = k)).isSome then
    l.map (fun kv => if kv.1 = k then (k, v) else kv)
  else l ++ [(k, v)]

/-- The whole server-visible world: the handler's in-memory session store and
current pointer, the archived-session history files, and the filesystem. -/
structure World where
  active_sessions : List (String × Session)
  current_session_id : Option String
  history : List (String × Session)
  fs : FS
deriving DecidableEq, Repr

def initWorld (fs : FS) : World := ⟨[], none, [], fs⟩

/-- The guard `if not self.current_session_id or self.current_session_id not in
self.active_sessions` shared by every workflow handler.  Python falsiness makes
the empty string count as no session. -/
def World.currentSession (w : World) : Option (String × Session) :=
  match w.current_session_id with
  | none => none
  | some id =>
    if id = "" then none
    else (w.active_sessions.find? (fun kv => kv.1 = id)).map (fun kv => (id, kv.2))

def noSessionErr : Err :=
  mkErr "WORKFLOW_VIOLATION" "No active work session. Call start_work first."

structure StartResp where
  session_id : String
  status : String
  user_goal : String
  agent_readme_content : String
  next_step : String
deriving DecidableEq, Repr

/-- `WorkflowToolsHandler.handle_start_work`.  `sid` stands for the fresh
`uuid4` string; the handoff document is assumed not to be a directory. -/
def handle_start_work (pr : List String) (w : World) (sid user_goal : String) :
    World × StartResp :=
  let w' := { w with
    active_sessions := updateAssoc w.active_sessions sid (newSession user_goal)
    current_session_id := some sid }
  let readme := (w.fs.lookup (agentreadmePath pr)).getD ""
  (w', ⟨sid, "work_started", user_goal, readme, "plan_setup"⟩)

/-- The JSON value bound to the `plan_steps` argument: missing (so the `[]`
default), a non-list value, or a list of strings. -/
inductive PlanArg
  | absent
  | notList
  | steps (l : List String)
deriving DecidableEq, Repr

structure PlanResp where
  status : String
  session_id : String
  total_steps : Nat
  plan_steps : List String
  current_step : Option String
deriving DecidableEq, Repr

def planInputErr : Err :=
  mkErrS "INVALID_INPUT" "plan_steps must be a non-empty list of strings"
    "Provide your plan as a list: ['Step 1: ...', 'Step 2: ...', ...]"

/-- The session mutation of a successful `plan_setup`. -/
def Session.withPlan (sess : Session) (l : List String) : Session :=
  { sess with
    plan_steps := l
    completed_steps := []
    current_step_index := 0
    state := .plan_submitted }

/-- `WorkflowToolsHandler.handle_plan_setup`. -/
def handle_plan_setup (w : World) (arg : PlanArg) : World × Except Err PlanResp :=
  match w.currentSession with
  | none => (w, .error noSessionErr)
  | some (id, sess) =>
    if sess.state ≠ .work_started then
      let st := sess.state.str
      (w, .error (mkErrS "WORKFLOW_VIOLATION" s!"Invalid state for plan_setup. Current state: {st}"
        "Call start_work first or check current workflow state"))
    else
      match arg with
      | .steps l =>
        if l.isEmpty then (w, .error planInputErr)
        else
          let sess' := sess.withPlan l
          let n := l.length
          let first := l.headD ""
          ({ w with active_sessions := updateAssoc w.active_sessions id sess' },
           .ok ⟨"plan_accepted", id, n, l, some s!"Step 1/{n}: {first}"⟩)
      | _ => (w, .error planInputErr)

structure ProceedResp where
  status : String
  session_id : String
  completed_work : String
  steps_completed : Nat
  total_steps : Nat
  completed_steps : List String
  next_step : Option String
deriving DecidableEq, Repr

/-- The session mutation of `handle_proceed`: append the progress entry, set
`in_progress`, and mark the current step completed when one is pending. -/
def Session.recordProgress (sess : Session) (completed_work : String) : Session :=
  let sess₁ := { sess with progress := sess.progress ++ [completed_work], state := .in_progress }
  -- Mark current step as completed and move to next
  if sess₁.plan_steps ≠ [] ∧ sess₁.current_step_index < sess₁.plan_steps.length then
    { sess₁ with
      completed_steps := sess₁.completed_steps ++ [sess₁.plan_steps.getD sess₁.current_step_index ""]
      current_step_index := sess₁.current_step_index + 1 }
  else sess₁

/-- `WorkflowToolsHandler.handle_proceed`. -/
def handle_proceed (w : World) (completed_work : String) : World × Except Err ProceedResp :=
  match w.currentSession with
  | none => (w, .error noSessionErr)
  | some (id, sess) =>
    if sess.state ≠ .plan_submitted ∧ sess.state ≠ .in_progress then
      let st := sess.state.str
      (w, .error (mkErrS "WORKFLOW_VIOLATION" s!"Invalid state for proceed. Current state: {st}"
        "Submit a plan with plan_setup first"))
    else
      let sess₂ := sess.recordProgress completed_work
      ({ w with active_sessions := updateAssoc w.active_sessions id sess₂ },
       .ok ⟨"progress_recorded", id, completed_work, sess₂.completed_steps.length,
            sess₂.plan_steps.length, sess₂.completed_steps,
            sess₂.plan_steps.get? sess₂.current_step_index⟩)

/-- Apply a run of `proceed` calls, keeping the worlds. -/
def runProceeds (w : World) (ws : List String) : World :=
  ws.foldl (fun w work => (handle_proceed w work).1) w

structure IssueResp where
  status : String
  session_id : String
  issue_description : String
deriving DecidableEq, Repr

/-- `WorkflowToolsHandler.handle_report_issue`. -/
def handle_report_issue (w : World) (description attempted : String) :
    World × Except Err IssueResp :=
  match w.currentSession with
  | none => (w, .error noSessionErr)
  | some (id, sess) =>
    let sess' := { sess with issues := sess.issues ++ [(description, attempted)] }
    ({ w with active_sessions := updateAssoc w.active_sessions id sess' },
     .ok ⟨"issue_recorded", id, description⟩)

structure EndResp where
  status : String
  session_id : String
  summary : String
  steps_completed : Nat
  total_steps : Nat
deriving DecidableEq, Repr

def missingReadmeErr : Err :=
  mkErrS "MISSING_AGENTREADME" "You must provide the complete agentreadme.md file content."
    "REQUIRED: Read the existing agentreadme.md file using read_file tool, update it with your changes, and provide the COMPLETE updated content in the agentreadme_content parameter. This is NOT optional!"

/-- The session mutation of a successful `end_job`. -/
def Session.endWith (sess : Session) (summary content : String) : Session :=
  { sess with summary := some summary, agentreadme_content := some content }

/-- `WorkflowToolsHandler.handle_end_job` (workflow_tools.py lines 315-396):
the four strict checks in source order, then the success effects — write the
handoff document, archive the session record under its id, clear the current
pointer. -/
def handle_end_job (pr : List String) (w : World) (summary content : String) :
    World × Except Err EndResp :=
  match w.currentSession with
  | none => (w, .error noSessionErr)
  | some (id, sess) =>
    -- STRICT CHECK 1: Must have completed at least one proceed before ending
    if sess.state ≠ .in_progress then
      let st := sess.state.str
      (w, .error (mkErrS "WORKFLOW_VIOLATION" s!"Cannot end job without completing work. Current state: {st}"
        "You must call 'proceed' at least once to report completed work before calling 'end_job'. The work is not done yet!"))
    -- STRICT CHECK 2: Must have at least one progress entry
    else if sess.progress.isEmpty then
      (w, .error (mkErrS "WORKFLOW_VIOLATION" "Cannot end job without any completed work reported."
        "Call 'proceed' to report your completed work before ending the job. You haven't done anything yet!"))
    -- STRICT CHECK 3: All planned steps must be completed
    else if sess.plan_steps ≠ [] ∧ sess.completed_steps.length < sess.plan_steps.length then
      let nc := sess.completed_steps.length
      let np := sess.plan_steps.length
      let rem := np - nc
      (w, .error (mkErrS "WORKFLOW_VIOLATION" s!"Cannot end job with incomplete plan. Completed {nc}/{np} steps."
        s!"You still have {rem} steps remaining. Complete them with 'proceed' or update your plan if needed."))
    -- STRICT CHECK 4: agentreadme_content must be provided and substantial
    else if content = "" ∨ (pyStrip content).length < 50 then
      (w, .error missingReadmeErr)
    else
      let sess' := sess.endWith summary content
      ({ w with
          active_sessions := updateAssoc w.active_sessions id sess'
          fs := w.fs.setFile (agentreadmePath pr) content
          history := updateAssoc w.history id sess'
          current_session_id := none },
       .ok ⟨"job_completed", id, summary, sess.completed_steps.length, sess.plan_steps.length⟩)

/-! ## Tool dispatcher (`call_tool` in server.py) -/

/-- A parsed (tool name, arguments) pair as delivered by the channel. -/
inductive ToolCall
  | start_work (sid user_goal : String)
  | plan_setup (arg : PlanArg)
  | proceed (completed_work : String)
  | report_issue (description attempted : String)
  | end_job (summary agentreadme_content : String)
  | read_file (path : String)
  | write_file (path content : String)
  | list_files (path : String)
  | search_files (query path : String)
  | append_file (path content : String)
  | other (name : String)
deriving DecidableEq, Repr

inductive ToolResp
  | startR (r : StartResp)
  | planR (r : PlanResp)
  | proceedR (r : ProceedResp)
  | issueR (r : IssueResp)
  | endR (r : EndResp)
  | readR (r : ReadResp)
  | writeR (r : WriteResp)
  | listR (r : ListResp)
  | searchR (r : SearchResp)
  | appendR (r : AppendResp)
deriving DecidableEq, Repr

/-- Server configuration: `self.project_root` and `self.docs_dir`, both
canonical absolute paths. -/
structure Config where
  pr : List String
  docs : List String
deriving DecidableEq, Repr

/-- The dispatcher: route to the handler by name, `UNKNOWN_TOOL` otherwise. -/
def call_tool (cfg : Config) (w : World) : ToolCall → World × Except Err ToolResp
  | .start_work sid goal =>
    let (w', r) := handle_start_work cfg.pr w sid goal
    (w', .ok (.startR r))
  | .plan_setup arg =>
    let (w', r) := handle_plan_setup w arg
    (w', r.map .planR)
  | .proceed work =>
    let (w', r) := handle_proceed w work
    (w', r.map .proceedR)
  | .report_issue d a =>
    let (w', r) := handle_report_issue w d a
    (w', r.map .issueR)
  | .end_job summary content =>
    let (w', r) := handle_end_job cfg.pr w summary content
    (w', r.map .endR)
  | .read_file p =>
    (w, (handle_read_file cfg.pr cfg.docs w.fs p).map .readR)
  | .write_file p c =>
    let (fs', r) := handle_write_file cfg.pr cfg.docs w.fs p c
    ({ w with fs := fs' }, r.map .writeR)
  | .list_files p =>
    (w, (handle_list_files cfg.docs w.fs p).map .listR)
  | .search_files q p =>
    (w, (handle_search_files cfg.docs w.fs q p).map .searchR)
  | .append_file p c =>
    let (fs', r) := handle_append_file cfg.pr cfg.docs w.fs p c
    ({ w with fs := fs' }, r.map .appendR)
  | .other name =>
    (w, .error (mkErr "UNKNOWN_TOOL" s!"Unknown tool: {name}"))

/-- Run a sequence of tool calls, keeping only the final world. -/
def runCalls (cfg : Config) (w : World) (calls : List ToolCall) : World :=
  calls.foldl (fun w c => (call_tool cfg w c).1) w

/-! ## Basic filesystem lemmas -/

theorem FS.lookup_setFile_self (fs : FS) (p : List String) (c : String) :
    (fs.setFile p c).lookup p = some c := by
  simp [FS.setFile, FS.lookup, List.find?]

theorem FS.isDir_setFile (fs : FS) (p : List String) (c : String) (q : List String) :
    (fs.setFile p c).isDir q = fs.isDir q := rfl

theorem FS.lookup_addParents (fs : FS) (p q : List String) :
    (fs.addParents p).lookup q = fs.lookup q := rfl

theorem FS.isDir_addParents_self (fs : FS) (p : List String) :
    (fs.addParents p).isDir p = fs.isDir p := by
  unfold FS.addParents FS.isDir
  have hnot : ¬ p ∈ (List.range p.length).map p.take := by
    intro hp
    obtain ⟨i, hi, heq⟩ := List.mem_map.mp hp
    have hi' := List.mem_range.mp hi
    have hlen : (p.take i).length = i := by
      simp only [List.length_take]
      omega
    rw [heq] at hlen
    omega
  by_cases hD : p ∈ fs.dirs
  · simp [List.elem_eq_mem, hD]
  · simp [List.elem_eq_mem, hD, hnot]

theorem FS.isFile_setFile_self (fs : FS) (p : List String) (c : String) :
    (fs.setFile p c).isFile p = true := by
  unfold FS.isFile
  rw [FS.lookup_setFile_self]
  rfl

/-! ## C1 -/

/-- C1: the claim states that every path whose resolution lies outside the
document root is answered with an `INVALID_PATH` error and no filesystem write
outside the root.  The code instead canonicalizes and then compares rendered
path *strings* with `startswith`, so with document root `/project/docs` the
path `../docs2/evil.md` canonicalizes to `/project/docs2/evil.md` — outside
the root — yet passes the check, and `write_file` creates that file outside
the sandbox and reports success.  This theorem evaluates the embedded code at
that failing input. -/
theorem C1_sandbox_escape_failing_input :
    ensure_docs_path ["project", "docs"] "../docs2/evil.md" = .ok ["project", "docs2", "evil.md"]
    ∧ underRoot ["project", "docs"] ["project", "docs2", "evil.md"] = false
    ∧ (handle_write_file ["project"] ["project", "docs"] ⟨[], []⟩ "../docs2/evil.md" "pwned").2
        = .ok ⟨"../docs2/evil.md", "written", 5, some 1, []⟩
    ∧ ((handle_write_file ["project"] ["project", "docs"] ⟨[], []⟩ "../docs2/evil.md" "pwned").1).lookup
        ["project", "docs2", "evil.md"] = some "pwned" := by
  refine ⟨rfl, rfl, rfl, rfl⟩

/-! ## C8 -/

/-- C8: the claim states that `read_file` fails with `INVALID_PATH` whenever
the (non-alias) path escapes the root.  Because of the same string-prefix
check as in C1, `../docs2/secret.md` escapes the root `/project/docs` but is
accepted, and `read_file` returns the content of a file outside the sandbox
instead of `INVALID_PATH`.  (On a clean tree the same call returns
`FILE_NOT_FOUND`, still not `INVALID_PATH`.) -/
theorem C8_read_escape_failing_input :
    ensure_docs_path ["project", "docs"] "../docs2/secret.md" = .ok ["project", "docs2", "secret.md"]
    ∧ underRoot ["project", "docs"] ["project", "docs2", "secret.md"] = false
    ∧ handle_read_file ["project"] ["project", "docs"]
        ⟨[(["project", "docs2", "secret.md"], "top secret")], []⟩ "../docs2/secret.md"
        = .ok ⟨"../docs2/secret.md", "top secret", 10⟩
    ∧ handle_read_file ["project"] ["project", "docs"] ⟨[], []⟩ "../docs2/secret.md"
        = .error (mkErr "FILE_NOT_FOUND" "File not found: ../docs2/secret.md") := by
  refine ⟨rfl, rfl, rfl, rfl⟩

/-! ## C10 -/

/-- C10: when the handoff document does not exist, `append_file` on either
alias does not fail with `FILE_NOT_FOUND` (unlike sandboxed paths): it creates
the handoff document containing exactly the supplied content, with no leading
newline, and reports status `appended`. -/
theorem C10_alias_append_creates (pr docs : List String) (fs : FS) (c : String)
    (habsent : fs.lookup (agentreadmePath pr) = none) :
    handle_append_file pr docs fs "agentreadme.md" c
      = (fs.setFile (agentreadmePath pr) c, .ok ⟨"agentreadme.md", "appended", c.length, none, none, []⟩)
    ∧ handle_append_file pr docs fs "../agentreadme.md" c
      = (fs.setFile (agentreadmePath pr) c, .ok ⟨"../agentreadme.md", "appended", c.length, none, none, []⟩)
    ∧ (fs.setFile (agentreadmePath pr) c).lookup (agentreadmePath pr) = some c := by
  refine ⟨?_, ?_, FS.lookup_setFile_self _ _ _⟩ <;>
    simp [handle_append_file, isAlias, habsent]

/-- C10 at a concrete input: an empty filesystem, content `"hello"`. -/
theorem C10_witness :
    handle_append_file ["project"] ["project", "docs"] ⟨[], []⟩ "agentreadme.md" "hello"
      = ((FS.mk [] []).setFile (agentreadmePath ["project"]) "hello",
         .ok ⟨"agentreadme.md", "appended", 5, none, none, []⟩)
    ∧ handle_append_file ["project"] ["project", "docs"] ⟨[], []⟩ "../agentreadme.md" "hello"
      = ((FS.mk [] []).setFile (agentreadmePath ["project"]) "hello",
         .ok ⟨"../agentreadme.md", "appended", 5, none, none, []⟩)
    ∧ ((FS.mk [] []).setFile (agentreadmePath ["project"]) "hello").lookup
        (agentreadmePath ["project"]) = some "hello" :=
  C10_alias_append_creates ["project"] ["project", "docs"] ⟨[], []⟩ "hello" rfl

/-! ## C3 -/

/-- The error codes the embedded code can actually emit. -/
def errorCodes : List String :=
  ["UNKNOWN_TOOL", "EXECUTION_ERROR", "WORKFLOW_VIOLATION", "INVALID_INPUT",
   "MISSING_AGENTREADME", "FILE_NOT_FOUND", "INVALID_PATH"]

/-- The seven code values the claim enumerates (with `MISSING_HANDOFF_DOC`
where the code writes `MISSING_AGENTREADME`). -/
def claimedErrorCodes : List String :=
  ["UNKNOWN_TOOL", "EXECUTION_ERROR", "WORKFLOW_VIOLATION", "INVALID_INPUT",
   "MISSING_HANDOFF_DOC", "FILE_NOT_FOUND", "INVALID_PATH"]

theorem except_map_error {α β : Type} {f : α → β} {r : Except Err α} {e : Err}
    (h : r.map f = .error e) : r = .error e := by
  cases r with
  | ok a => simp [Except.map] at h
  | error e' => simpa [Except.map] using h

theorem read_file_err_code (pr docs : List String) (fs : FS) (p : String) (e : Err)
    (h : handle_read_file pr docs fs p = .error e) : e.code ∈ errorCodes := by
  unfold handle_read_file at h
  repeat' split at h
  all_goals first
    | (injection h with h; subst h;
       simp [mkErr, mkErrS, errorCodes, noSessionErr, planInputErr, missingReadmeErr])
    | exact absurd h (by simp)

theorem write_file_err_code (pr docs : List String) (fs : FS) (p c : String) (e : Err)
    (h : (handle_write_file pr docs fs p c).2 = .error e) : e.code ∈ errorCodes := by
  unfold handle_write_file at h
  repeat' split at h
  all_goals try simp only at h
  all_goals first
    | (injection h with h; subst h;
       simp [mkErr, mkErrS, errorCodes, noSessionErr, planInputErr, missingReadmeErr])
    | exact absurd h (by simp)

theorem append_file_err_code (pr docs : List String) (fs : FS) (p c : String) (e : Err)
    (h : (handle_append_file pr docs fs p c).2 = .error e) : e.code ∈ errorCodes := by
  unfold handle_append_file at h
  dsimp only at h
  cases hlk : fs.lookup (agentreadmePath pr) <;> rw [hlk] at h <;> repeat' split at h
  all_goals try simp only at h
  all_goals first
    | (injection h with h; subst h;
       simp [mkErr, mkErrS, errorCodes, noSessionErr, planInputErr, missingReadmeErr])
    | exact absurd h (by simp)

theorem list_files_err_code (docs : List String) (fs : FS) (p : String) (e : Err)
    (h : handle_list_files docs fs p = .error e) : e.code ∈ errorCodes := by
  unfold handle_list_files at h
  repeat' split at h
  all_goals first
    | (injection h with h; subst h;
       simp [mkErr, mkErrS, errorCodes, noSessionErr, planInputErr, missingReadmeErr])
    | exact absurd h (by simp)

theorem search_files_err_code (docs : List String) (fs : FS) (q p : String) (e : Err)
    (h : handle_search_files docs fs q p = .error e) : e.code ∈ errorCodes := by
  unfold handle_search_files at h
  repeat' split at h
  all_goals first
    | (injection h with h; subst h;
       simp [mkErr, mkErrS, errorCodes, noSessionErr, planInputErr, missingReadmeErr])
    | exact absurd h (by simp)

theorem plan_setup_err_code (w : World) (arg : PlanArg) (e : Err)
    (h : (handle_plan_setup w arg).2 = .error e) : e.code ∈ errorCodes := by
  unfold handle_plan_setup at h
  repeat' split at h
  all_goals try simp only at h
  all_goals first
    | (injection h with h; subst h;
       simp [mkErr, mkErrS, errorCodes, noSessionErr, planInputErr, missingReadmeErr])
    | exact absurd h (by simp)

theorem proceed_err_code (w : World) (work : String) (e : Err)
    (h : (handle_proceed w work).2 = .error e) : e.code ∈ errorCodes := by
  unfold handle_proceed at h
  repeat' split at h
  all_goals try simp only at h
  all_goals first
    | (injection h with h; subst h;
       simp [mkErr, mkErrS, errorCodes, noSessionErr, planInputErr, missingReadmeErr])
    | exact absurd h (by simp)

theorem report_issue_err_code (w : World) (d a : String) (e : Err)
    (h : (handle_report_issue w d a).2 = .error e) : e.code ∈ errorCodes := by
  unfold handle_report_issue at h
  repeat' split at h
  all_goals try simp only at h
  all_goals first
    | (injection h with h; subst h;
       simp [mkErr, mkErrS, errorCodes, noSessionErr, planInputErr, missingReadmeErr])
    | exact absurd h (by simp)

theorem end_job_err_code (pr : List String) (w : World) (s c : String) (e : Err)
    (h : (handle_end_job pr w s c).2 = .error e) : e.code ∈ errorCodes := by
  unfold handle_end_job at h
  repeat' split at h
  all_goals try simp only at h
  all_goals first
    | (injection h with h; subst h;
       simp [mkErr, mkErrS, errorCodes, noSessionErr, planInputErr, missingReadmeErr])
    | exact absurd h (by simp)

/-- C3, amended: the envelope of every failing tool invocation is the
`Err` record `{code, message, suggestion?}`, and the `code` is one of exactly
the seven values the dispatcher and handlers construct — with the literal
wire string `MISSING_AGENTREADME` as the missing-handoff-document code. -/
theorem C3_error_codes_closed (cfg : Config) (w : World) (c : ToolCall) (e : Err)
    (h : (call_tool cfg w c).2 = .error e) : e.code ∈ errorCodes := by
  cases c with
  | start_work sid goal =>
    unfold call_tool at h
    simp only at h
    exact absurd h (by simp)
  | plan_setup arg =>
    unfold call_tool at h
    simp only at h
    exact plan_setup_err_code w arg e (except_map_error h)
  | proceed work =>
    unfold call_tool at h
    simp only at h
    exact proceed_err_code w work e (except_map_error h)
  | report_issue d a =>
    unfold call_tool at h
    simp only at h
    exact report_issue_err_code w d a e (except_map_error h)
  | end_job s ct =>
    unfold call_tool at h
    simp only at h
    exact end_job_err_code cfg.pr w s ct e (except_map_error h)
  | read_file p =>
    unfold call_tool at h
    exact read_file_err_code cfg.pr cfg.docs w.fs p e (except_map_error h)
  | write_file p ct =>
    unfold call_tool at h
    simp only at h
    exact write_file_err_code cfg.pr cfg.docs w.fs p ct e (except_map_error h)
  | list_files p =>
    unfold call_tool at h
    exact list_files_err_code cfg.docs w.fs p e (except_map_error h)
  | search_files q p =>
    unfold call_tool at h
    exact search_files_err_code cfg.docs w.fs q p e (except_map_error h)
  | append_file p ct =>
    unfold call_tool at h
    simp only at h
    exact append_file_err_code cfg.pr cfg.docs w.fs p ct e (except_map_error h)
  | other name =>
    unfold call_tool at h
    injection h with h
    subst h
    simp [mkErr, errorCodes]

/-- C3 witness: the unknown-tool envelope, produced by the dispatcher at a
concrete input, carries one of the seven emitted codes. -/
theorem C3_error_codes_closed_witness :
    (mkErr "UNKNOWN_TOOL" "Unknown tool: bogus").code ∈ errorCodes :=
  C3_error_codes_closed ⟨["project"], ["project", "docs"]⟩ (initWorld ⟨[], []⟩)
    (.other "bogus") (mkErr "UNKNOWN_TOOL" "Unknown tool: bogus") rfl

/-- A reachable world one `end_job` short of completion: one current session,
`in_progress`, plan done, progress recorded. -/
def c3World : World :=
  ⟨[("s1", ⟨.in_progress, "g", ["a"], ["a"], 1, ["w"], [], none, none⟩)],
   some "s1", [], ⟨[], []⟩⟩

/-- C3 counterexample: `end_job` with an undersized handoff document fails
with the literal code `MISSING_AGENTREADME`, which is not among the seven
values the claim enumerates (the claim writes `MISSING_HANDOFF_DOC`). -/
theorem C3_counterexample :
    (call_tool ⟨["project"], ["project", "docs"]⟩ c3World (.end_job "sum" "too short")).2
      = .error missingReadmeErr
    ∧ missingReadmeErr.code = "MISSING_AGENTREADME"
    ∧ missingReadmeErr.code ∉ claimedErrorCodes := by
  refine ⟨rfl, rfl, by decide⟩

/-! ## C9 -/

theorem containsSub_nil (s : List Char) : containsSub [] s = true := by
  cases s <;> simp [containsSub, List.isPrefixOf]

theorem lineMatches_empty (l : String) : lineMatches "" l = true := by
  unfold lineMatches
  exact containsSub_nil _

theorem length_filterMap_some {α β : Type} (l : List α) (f : α → β) :
    (l.filterMap fun a => some (f a)).length = l.length := by
  induction l with
  | nil => rfl
  | cons a rest ih => simp [List.filterMap_cons, ih]

theorem searchInFile_empty_length (docs fp : List String) (c : String) :
    (searchInFile docs "" fp c).length = (pySplitlines c).length := by
  unfold searchInFile
  simp only [lineMatches_empty, if_true]
  rw [length_filterMap_some]
  exact List.enumFrom_length

/-- C9: with the empty query, `search_files` over an existing directory target
matches every line of every searched `.md`, `.txt`, `.json` file under it
(the empty substring matches each line case-insensitively), so
`total_matches` is the total line count of the searched files. -/
theorem C9_empty_query_counts_lines (docs : List String) (fs : FS) (path : String)
    (dp : List String)
    (hok : ensure_docs_path docs path = .ok dp)
    (hdir : fs.isDir dp = true) (hnf : fs.isFile dp = false) :
    handle_search_files docs fs "" path =
      .ok ⟨"", path,
        (searchedFiles fs dp).flatMap (fun kv => searchInFile docs "" kv.1 kv.2),
        ((searchedFiles fs dp).map (fun kv => (pySplitlines kv.2).length)).sum⟩
    ∧ ∀ kv ∈ searchedFiles fs dp,
        (searchInFile docs "" kv.1 kv.2).length = (pySplitlines kv.2).length := by
  have hlen : ((searchedFiles fs dp).flatMap fun kv => searchInFile docs "" kv.1 kv.2).length
      = ((searchedFiles fs dp).map fun kv => (pySplitlines kv.2).length).sum := by
    rw [List.length_flatMap]
    exact congrArg List.sum (List.map_congr_left
      (fun kv _ => searchInFile_empty_length docs kv.1 kv.2))
  constructor
  · unfold handle_search_files
    rw [hok]
    have hex : fs.exists dp = true := by
      unfold FS.exists
      rw [hdir, hnf]
      rfl
    simp [hex, hnf, hlen]
  · intro kv _
    exact searchInFile_empty_length docs kv.1 kv.2

/-- C9 at a concrete input: three files under the docs root, five lines in
total, `total_matches = 3`. -/
theorem C9_witness :
    handle_search_files ["project", "docs"]
      ⟨[(["project", "docs", "a.md"], "l1\nl2"), (["project", "docs", "b.txt"], "x")],
       [["project", "docs"]]⟩ "" "" =
      .ok ⟨"", "",
        (searchedFiles ⟨[(["project", "docs", "a.md"], "l1\nl2"), (["project", "docs", "b.txt"], "x")],
          [["project", "docs"]]⟩ ["project", "docs"]).flatMap
            (fun kv => searchInFile ["project", "docs"] "" kv.1 kv.2),
        ((searchedFiles ⟨[(["project", "docs", "a.md"], "l1\nl2"), (["project", "docs", "b.txt"], "x")],
          [["project", "docs"]]⟩ ["project", "docs"]).map
            (fun kv => (pySplitlines kv.2).length)).sum⟩
    ∧ ∀ kv ∈ searchedFiles ⟨[(["project", "docs", "a.md"], "l1\nl2"), (["project", "docs", "b.txt"], "x")],
          [["project", "docs"]]⟩ ["project", "docs"],
        (searchInFile ["project", "docs"] "" kv.1 kv.2).length = (pySplitlines kv.2).length :=
  C9_empty_query_counts_lines ["project", "docs"]
    ⟨[(["project", "docs", "a.md"], "l1\nl2"), (["project", "docs", "b.txt"], "x")],
     [["project", "docs"]]⟩ "" ["project", "docs"] rfl rfl rfl

/-! ## C6 -/

theorem write_file_fs (pr docs : List String) (fs : FS) (p c : String) (fp : List String)
    (halias : isAlias p = false) (hok : ensure_docs_path docs p = .ok fp)
    (hpar : fs.parentBlocked fp = false) (hnd : fs.isDir fp = false) :
    (handle_write_file pr docs fs p c).1 = (fs.addParents fp).setFile fp c := by
  unfold handle_write_file
  simp [halias, hok, hpar, hnd]

theorem read_after_set (pr docs : List String) (fs : FS) (p : String) (fp : List String)
    (c : String)
    (halias : isAlias p = false) (hok : ensure_docs_path docs p = .ok fp)
    (hd : fs.isDir fp = false) :
    handle_read_file pr docs (fs.setFile fp c) p = .ok ⟨p, c, c.length⟩ := by
  unfold handle_read_file
  have hex : (fs.setFile fp c).exists fp = true := by
    unfold FS.exists
    rw [FS.isFile_setFile_self]
    rfl
  have hdir : (fs.setFile fp c).isDir fp = false := by
    rw [FS.isDir_setFile]
    exact hd
  simp [halias, hok, hex, hdir, FS.lookup_setFile_self]

theorem append_after (pr docs : List String) (fs : FS) (p : String) (fp : List String)
    (c2 existing : String)
    (halias : isAlias p = false) (hok : ensure_docs_path docs p = .ok fp)
    (hd : fs.isDir fp = false) (hlk : fs.lookup fp = some existing) :
    (handle_append_file pr docs fs p c2).1 = fs.setFile fp (existing ++ "\n" ++ c2) := by
  unfold handle_append_file
  have hex : fs.exists fp = true := by
    unfold FS.exists FS.isFile
    rw [hlk]
    rfl
  simp [halias, hok, hex, hd, hlk]

/-- C6: on a sandbox-accepted non-alias path whose write can succeed — the
resolved target is not an existing directory and no proper ancestor of it
exists as a regular file (otherwise the source's `mkdir`/`write_text` raises
and the handler returns `EXECUTION_ERROR` with no write) — `write_file(p, c)`
then `read_file(p)` returns content exactly `c`; a subsequent
`append_file(p, c2)` then `read_file(p)` returns exactly `c ++ "\n" ++ c2`;
and `append_file` on an absent target fails with `FILE_NOT_FOUND` and the
hint to use `write_file`. -/
theorem C6_write_read_append_roundtrip (pr docs : List String) (fs : FS) (p c c2 : String)
    (fp : List String)
    (halias : isAlias p = false)
    (hok : ensure_docs_path docs p = .ok fp)
    (hpar : fs.parentBlocked fp = false)
    (hnd : fs.isDir fp = false) :
    handle_read_file pr docs (handle_write_file pr docs fs p c).1 p = .ok ⟨p, c, c.length⟩
    ∧ handle_read_file pr docs
        (handle_append_file pr docs (handle_write_file pr docs fs p c).1 p c2).1 p
        = .ok ⟨p, c ++ "\n" ++ c2, (c ++ "\n" ++ c2).length⟩
    ∧ (fs.exists fp = false →
        handle_append_file pr docs fs p c2
          = (fs, .error (mkErrS "FILE_NOT_FOUND" s!"Cannot append to non-existent file: {p}"
              "Use write_file to create a new file"))) := by
  have hfs1 : (handle_write_file pr docs fs p c).1 = (fs.addParents fp).setFile fp c :=
    write_file_fs pr docs fs p c fp halias hok hpar hnd
  have hd1 : (fs.addParents fp).isDir fp = false := by
    rw [FS.isDir_addParents_self]
    exact hnd
  have hd2 : ((fs.addParents fp).setFile fp c).isDir fp = false := by
    rw [FS.isDir_setFile]
    exact hd1
  refine ⟨?_, ?_, ?_⟩
  · rw [hfs1]
    exact read_after_set pr docs (fs.addParents fp) p fp c halias hok hd1
  · rw [hfs1]
    have hfs2 : (handle_append_file pr docs ((fs.addParents fp).setFile fp c) p c2).1
        = ((fs.addParents fp).setFile fp c).setFile fp (c ++ "\n" ++ c2) :=
      append_after pr docs ((fs.addParents fp).setFile fp c) p fp c2 c halias hok hd2
        (FS.lookup_setFile_self _ _ _)
    rw [hfs2]
    exact read_after_set pr docs ((fs.addParents fp).setFile fp c) p fp (c ++ "\n" ++ c2)
      halias hok (by rw [FS.isDir_setFile]; exact hd2)
  · intro hex
    unfold handle_append_file
    simp [halias, hok, hex]

/-- C6 at a concrete input: `notes.md` on an empty docs tree, `c = "a"`,
`c2 = "b"`. -/
theorem C6_witness :
    handle_read_file ["project"] ["project", "docs"]
      (handle_write_file ["project"] ["project", "docs"] ⟨[], []⟩ "notes.md" "a").1 "notes.md"
      = .ok ⟨"notes.md", "a", "a".length⟩
    ∧ handle_read_file ["project"] ["project", "docs"]
        (handle_append_file ["project"] ["project", "docs"]
          (handle_write_file ["project"] ["project", "docs"] ⟨[], []⟩ "notes.md" "a").1
          "notes.md" "b").1 "notes.md"
        = .ok ⟨"notes.md", "a" ++ "\n" ++ "b", ("a" ++ "\n" ++ "b").length⟩
    ∧ ((FS.mk [] []).exists ["project", "docs", "notes.md"] = false →
        handle_append_file ["project"] ["project", "docs"] ⟨[], []⟩ "notes.md" "b"
          = (⟨[], []⟩, .error (mkErrS "FILE_NOT_FOUND" "Cannot append to non-existent file: notes.md"
              "Use write_file to create a new file"))) :=
  C6_write_read_append_roundtrip ["project"] ["project", "docs"] ⟨[], []⟩ "notes.md" "a" "b"
    ["project", "docs", "notes.md"] rfl rfl rfl rfl

/-! ## C2 -/

/-- The consistency facts reachable sessions satisfy (C7 proves them
invariant): never more completed steps than planned ones, and no completed
steps at all while no plan is recorded. -/
def Session.stepsConsistent (s : Session) : Prop :=
  s.completed_steps.length ≤ s.plan_steps.length ∧ (s.plan_steps = [] → s.completed_steps = [])

instance (s : Session) : Decidable s.stepsConsistent := by
  unfold Session.stepsConsistent
  infer_instance

theorem currentSession_mem {w : World} {id : String} {sess : Session}
    (h : w.currentSession = some (id, sess)) : (id, sess) ∈ w.active_sessions := by
  unfold World.currentSession at h
  cases hcur : w.current_session_id with
  | none => rw [hcur] at h; exact absurd h (by simp)
  | some i =>
    rw [hcur] at h
    dsimp only at h
    by_cases hi : i = ""
    · rw [if_pos hi] at h
      exact absurd h (by simp)
    · rw [if_neg hi] at h
      rw [Option.map_eq_some'] at h
      obtain ⟨kv, hfind, heq⟩ := h
      have hkey : kv.1 = i := by
        have := List.find?_some hfind
        simpa using this
      have hmem := List.mem_of_find?_eq_some hfind
      have : (id, sess) = kv := by
        cases heq
        rw [← hkey]
      rw [this]
      exact hmem

/-- The claim C2's reading of `end_job`, transcribed from the spec: the five
preconditions checked in the stated order with the first failure winning —
current session exists, state `in_progress`, `progress` non-empty,
`len(completed_steps) == len(plan_steps)` (the spec's phrasing of plan
completeness), handoff content non-empty and at least 50 characters when
stripped — then the success effects: overwrite the handoff document, archive
the session record under its identifier, clear the current pointer. -/
def end_job_spec (pr : List String) (w : World) (summary content : String) :
    World × Except Err EndResp :=
  match w.currentSession with
  | none => (w, .error noSessionErr)
  | some (id, sess) =>
    if sess.state ≠ .in_progress then
      let st := sess.state.str
      (w, .error (mkErrS "WORKFLOW_VIOLATION" s!"Cannot end job without completing work. Current state: {st}"
        "You must call 'proceed' at least once to report completed work before calling 'end_job'. The work is not done yet!"))
    else if sess.progress.isEmpty then
      (w, .error (mkErrS "WORKFLOW_VIOLATION" "Cannot end job without any completed work reported."
        "Call 'proceed' to report your completed work before ending the job. You haven't done anything yet!"))
    else if sess.completed_steps.length ≠ sess.plan_steps.length then
      let nc := sess.completed_steps.length
      let np := sess.plan_steps.length
      let rem := np - nc
      (w, .error (mkErrS "WORKFLOW_VIOLATION" s!"Cannot end job with incomplete plan. Completed {nc}/{np} steps."
        s!"You still have {rem} steps remaining. Complete them with 'proceed' or update your plan if needed."))
    else if content = "" ∨ (pyStrip content).length < 50 then
      (w, .error missingReadmeErr)
    else
      let sess' := sess.endWith summary content
      ({ w with
          active_sessions := updateAssoc w.active_sessions id sess'
          fs := w.fs.setFile (agentreadmePath pr) content
          history := updateAssoc w.history id sess'
          current_session_id := none },
       .ok ⟨"job_completed", id, summary, sess.completed_steps.length, sess.plan_steps.length⟩)

/-- C2: on every state whose sessions are consistent (all reachable ones are,
by C7), `end_job` behaves exactly as the claim describes: the five
preconditions in order, first failure winning, with plan completeness
equivalent to `len(completed_steps) == len(plan_steps)`, and on success the
handoff document overwritten, the session archived under its identifier, and
the current pointer cleared. -/
theorem C2_end_job_checks_in_order (pr : List String) (w : World) (summary content : String)
    (hcons : ∀ kv ∈ w.active_sessions, Session.stepsConsistent kv.2) :
    handle_end_job pr w summary content = end_job_spec pr w summary content := by
  unfold handle_end_job end_job_spec
  cases hc : w.currentSession with
  | none => rfl
  | some pair =>
    obtain ⟨id, sess⟩ := pair
    have hsc := hcons _ (currentSession_mem hc)
    have hle : sess.completed_steps.length ≤ sess.plan_steps.length := hsc.1
    have hemp : sess.plan_steps = [] → sess.completed_steps = [] := hsc.2
    by_cases h1 : sess.state ≠ .in_progress
    · simp only [if_pos h1]
    · simp only [if_neg h1]
      by_cases h2 : sess.progress.isEmpty
      · simp only [if_pos h2]
      · simp only [if_neg h2]
        by_cases h3 : sess.completed_steps.length = sess.plan_steps.length
        · have hcode : ¬ (sess.plan_steps ≠ [] ∧
              sess.completed_steps.length < sess.plan_steps.length) := by
            rintro ⟨-, hlt⟩
            omega
          simp only [if_neg hcode, if_neg (by omega : ¬ sess.completed_steps.length ≠ sess.plan_steps.length)]
        · have hne : sess.plan_steps ≠ [] := by
            intro hpe
            have := hemp hpe
            rw [hpe, this] at h3
            exact h3 rfl
          have hlt : sess.completed_steps.length < sess.plan_steps.length := by
            omega
          simp only [if_pos (And.intro hne hlt), if_pos h3]

/-- C2 at a concrete input: a completed two-step session; both sides agree. -/
theorem C2_witness :
    handle_end_job ["project"]
      ⟨[("s1", ⟨.in_progress, "goal", ["a", "b"], ["a", "b"], 2, ["w1", "w2"], [], none, none⟩)],
       some "s1", [], ⟨[], []⟩⟩ "sum" "This handoff summary content is long enough to pass the length check."
    = end_job_spec ["project"]
      ⟨[("s1", ⟨.in_progress, "goal", ["a", "b"], ["a", "b"], 2, ["w1", "w2"], [], none, none⟩)],
       some "s1", [], ⟨[], []⟩⟩ "sum" "This handoff summary content is long enough to pass the length check." :=
  C2_end_job_checks_in_order ["project"] _ "sum" _ (by decide)

/-! ## Session-store lemmas -/

theorem find?_map_self (l : List (String × Session)) (k : String) (v : Session)
    (hs : (l.find? (fun kv => kv.1 = k)).isSome) :
    (l.map (fun kv => if kv.1 = k then (k, v) else kv)).find? (fun kv => kv.1 = k)
      = some (k, v) := by
  induction l with
  | nil => simp at hs
  | cons kv rest ih =>
    by_cases hk : kv.1 = k
    · simp [List.find?_cons, hk]
    · simp only [List.map_cons, if_neg hk]
      rw [List.find?_cons_of_neg _ (by simpa using hk)]
      apply ih
      rwa [List.find?_cons_of_neg _ (by simpa using hk)] at hs

theorem find?_append_single (l : List (String × Session)) (k : String) (v : Session)
    (hn : l.find? (fun kv => kv.1 = k) = none) :
    (l ++ [(k, v)]).find? (fun kv => kv.1 = k) = some (k, v) := by
  induction l with
  | nil => simp [List.find?]
  | cons kv rest ih =>
    by_cases hk : kv.1 = k
    · rw [List.find?_cons_of_pos _ (by simpa using hk)] at hn
      exact absurd hn (by simp)
    · rw [List.cons_append, List.find?_cons_of_neg _ (by simpa using hk)]
      rw [List.find?_cons_of_neg _ (by simpa using hk)] at hn
      exact ih hn

theorem updateAssoc_find_self (l : List (String × Session)) (k : String) (v : Session) :
    (updateAssoc l k v).find? (fun kv => kv.1 = k) = some (k, v) := by
  unfold updateAssoc
  by_cases hs : (l.find? (fun kv => kv.1 = k)).isSome
  · rw [if_pos hs]
    exact find?_map_self l k v hs
  · rw [if_neg hs]
    exact find?_append_single l k v (by rwa [Option.not_isSome_iff_eq_none] at hs)

theorem mem_updateAssoc {l : List (String × Session)} {k : String} {v : Session}
    {kv : String × Session} (h : kv ∈ updateAssoc l k v) : kv = (k, v) ∨ kv ∈ l := by
  unfold updateAssoc at h
  split at h
  · obtain ⟨kv₀, hkv₀, heq⟩ := List.mem_map.mp h
    by_cases hk : kv₀.1 = k
    · rw [if_pos hk] at heq
      exact .inl heq.symm
    · rw [if_neg hk] at heq
      exact .inr (heq ▸ hkv₀)
  · rcases List.mem_append.mp h with h | h
    · exact .inr h
    · exact .inl (by simpa using h)

/-- Inversion of `World.currentSession`: the current pointer names a non-empty
id found in the session store. -/
theorem currentSession_inv {w : World} {id : String} {sess : Session}
    (h : w.currentSession = some (id, sess)) :
    w.current_session_id = some id ∧ id ≠ "" ∧
      w.active_sessions.find? (fun kv => kv.1 = id) = some (id, sess) := by
  unfold World.currentSession at h
  cases hcur : w.current_session_id with
  | none => rw [hcur] at h; exact absurd h (by simp)
  | some i =>
    rw [hcur] at h
    dsimp only at h
    by_cases hi : i = ""
    · rw [if_pos hi] at h
      exact absurd h (by simp)
    · rw [if_neg hi] at h
      rw [Option.map_eq_some'] at h
      obtain ⟨kv, hfind, heq⟩ := h
      have hid : i = id := congrArg Prod.fst heq
      subst hid
      have hkey : kv.1 = i := by simpa using List.find?_some hfind
      refine ⟨rfl, hi, ?_⟩
      rw [hfind]
      have h2 : kv.2 = sess := congrArg Prod.snd heq
      rw [← h2, ← hkey]

/-- Updating the current session's record keeps it current. -/
theorem currentSession_update {w : World} {id : String} {sess : Session}
    (h : w.currentSession = some (id, sess)) (v : Session) :
    ({ w with active_sessions := updateAssoc w.active_sessions id v } : World).currentSession
      = some (id, v) := by
  obtain ⟨hcur, hi, -⟩ := currentSession_inv h
  unfold World.currentSession
  dsimp only
  rw [hcur]
  dsimp only
  rw [if_neg hi, updateAssoc_find_self]
  rfl

/-- Inversion of a successful `plan_setup`. -/
theorem plan_setup_ok {w w₁ : World} {arg : PlanArg} {r : PlanResp}
    (h : handle_plan_setup w arg = (w₁, .ok r)) :
    ∃ id sess l, arg = .steps l ∧ l ≠ [] ∧ w.currentSession = some (id, sess) ∧
      sess.state = .work_started ∧
      w₁ = { w with active_sessions := updateAssoc w.active_sessions id (sess.withPlan l) } := by
  unfold handle_plan_setup at h
  cases hc : w.currentSession with
  | none =>
    rw [hc] at h
    exact absurd (congrArg Prod.snd h) (by simp)
  | some pair =>
    obtain ⟨id, sess⟩ := pair
    rw [hc] at h
    dsimp only at h
    split at h
    · exact absurd (congrArg Prod.snd h) (by simp)
    · rename_i hstate
      cases arg with
      | absent => exact absurd (congrArg Prod.snd h) (by simp)
      | notList => exact absurd (congrArg Prod.snd h) (by simp)
      | steps l =>
        dsimp only at h
        split at h
        · exact absurd (congrArg Prod.snd h) (by simp)
        · rename_i hne
          refine ⟨id, sess, l, rfl, by simpa using hne, rfl, by simpa using hstate, ?_⟩
          exact (congrArg Prod.fst h).symm

/-- A successful `proceed` on a current session in an allowed state. -/
theorem proceed_step {w : World} {id : String} {sess : Session} (work : String)
    (h : w.currentSession = some (id, sess))
    (hst : sess.state = .plan_submitted ∨ sess.state = .in_progress) :
    handle_proceed w work =
      ({ w with active_sessions := updateAssoc w.active_sessions id (sess.recordProgress work) },
       .ok ⟨"progress_recorded", id, work, (sess.recordProgress work).completed_steps.length,
            (sess.recordProgress work).plan_steps.length,
            (sess.recordProgress work).completed_steps,
            (sess.recordProgress work).plan_steps.get?
              (sess.recordProgress work).current_step_index⟩) := by
  unfold handle_proceed
  rw [h]
  dsimp only
  rw [if_neg (by rcases hst with h' | h' <;> simp [h'])]

/-! ## C4 -/

/-- C4: `plan_setup` succeeds only from a current `work_started` session
(the spec's `STARTED`), fails with `WORKFLOW_VIOLATION` otherwise — in
particular a second consecutive `plan_setup` always fails that way — and a
`steps` argument that is not a non-empty list fails with `INVALID_INPUT`
leaving the state unchanged. -/
theorem C4_plan_setup_gating (w : World) :
    (∀ arg w' r, handle_plan_setup w arg = (w', .ok r) →
        ∃ id sess, w.currentSession = some (id, sess) ∧ sess.state = .work_started)
    ∧ ((¬ ∃ id sess, w.currentSession = some (id, sess) ∧ sess.state = .work_started) →
        ∀ arg, (handle_plan_setup w arg).1 = w ∧
          ∃ e, (handle_plan_setup w arg).2 = .error e ∧ e.code = "WORKFLOW_VIOLATION")
    ∧ (∀ arg w' r arg', handle_plan_setup w arg = (w', .ok r) →
        ∃ e, (handle_plan_setup w' arg').2 = .error e ∧ e.code = "WORKFLOW_VIOLATION")
    ∧ (∀ id sess, w.currentSession = some (id, sess) → sess.state = .work_started →
        ∀ arg, (arg = PlanArg.absent ∨ arg = PlanArg.notList ∨ arg = PlanArg.steps []) →
        handle_plan_setup w arg = (w, .error planInputErr)
          ∧ planInputErr.code = "INVALID_INPUT") := by
  refine ⟨?_, ?_, ?_, ?_⟩
  · intro arg w' r h
    obtain ⟨id, sess, l, -, -, hc, hstate, -⟩ := plan_setup_ok h
    exact ⟨id, sess, hc, hstate⟩
  · intro hno arg
    unfold handle_plan_setup
    cases hc : w.currentSession with
    | none => exact ⟨rfl, _, rfl, rfl⟩
    | some pair =>
      obtain ⟨id, sess⟩ := pair
      dsimp only
      have hstate : sess.state ≠ .work_started := fun hs => hno ⟨id, sess, hc, hs⟩
      rw [if_pos hstate]
      exact ⟨rfl, _, rfl, rfl⟩
  · intro arg w' r arg' h
    obtain ⟨id, sess, l, -, -, hc, -, hw'⟩ := plan_setup_ok h
    have hcur' : w'.currentSession = some (id, sess.withPlan l) := by
      rw [hw']
      exact currentSession_update hc _
    unfold handle_plan_setup
    rw [hcur']
    dsimp only
    rw [if_pos (by simp [Session.withPlan])]
    exact ⟨_, rfl, rfl⟩
  · intro id sess hc hstate arg harg
    unfold handle_plan_setup
    rw [hc]
    dsimp only
    rw [if_neg (by simp [hstate])]
    rcases harg with rfl | rfl | rfl
    · exact ⟨rfl, rfl⟩
    · exact ⟨rfl, rfl⟩
    · exact ⟨rfl, rfl⟩

/-- C4 at a concrete input: a fresh `work_started` session — empty `steps`
is rejected with `INVALID_INPUT` and the state is unchanged. -/
theorem C4_witness :
    (∀ arg w' r, handle_plan_setup ⟨[("s1", newSession "g")], some "s1", [], ⟨[], []⟩⟩ arg
          = (w', .ok r) →
        ∃ id sess, (World.mk [("s1", newSession "g")] (some "s1") [] ⟨[], []⟩).currentSession
            = some (id, sess) ∧ sess.state = .work_started)
    ∧ ((¬ ∃ id sess, (World.mk [("s1", newSession "g")] (some "s1") [] ⟨[], []⟩).currentSession
            = some (id, sess) ∧ sess.state = .work_started) →
        ∀ arg, (handle_plan_setup ⟨[("s1", newSession "g")], some "s1", [], ⟨[], []⟩⟩ arg).1
            = ⟨[("s1", newSession "g")], some "s1", [], ⟨[], []⟩⟩ ∧
          ∃ e, (handle_plan_setup ⟨[("s1", newSession "g")], some "s1", [], ⟨[], []⟩⟩ arg).2
              = .error e ∧ e.code = "WORKFLOW_VIOLATION")
    ∧ (∀ arg w' r arg', handle_plan_setup ⟨[("s1", newSession "g")], some "s1", [], ⟨[], []⟩⟩ arg
          = (w', .ok r) →
        ∃ e, (handle_plan_setup w' arg').2 = .error e ∧ e.code = "WORKFLOW_VIOLATION")
    ∧ (∀ id sess, (World.mk [("s1", newSession "g")] (some "s1") [] ⟨[], []⟩).currentSession
          = some (id, sess) → sess.state = .work_started →
        ∀ arg, (arg = PlanArg.absent ∨ arg = PlanArg.notList ∨ arg = PlanArg.steps []) →
        handle_plan_setup ⟨[("s1", newSession "g")], some "s1", [], ⟨[], []⟩⟩ arg
            = (⟨[("s1", newSession "g")], some "s1", [], ⟨[], []⟩⟩, .error planInputErr)
          ∧ planInputErr.code = "INVALID_INPUT") :=
  C4_plan_setup_gating ⟨[("s1", newSession "g")], some "s1", [], ⟨[], []⟩⟩

/-! ## C5 -/

theorem recordProgress_plan (sess : Session) (work : String) :
    (sess.recordProgress work).plan_steps = sess.plan_steps
    ∧ (sess.recordProgress work).progress = sess.progress ++ [work]
    ∧ (sess.recordProgress work).state = .in_progress := by
  unfold Session.recordProgress
  dsimp only
  split <;> exact ⟨rfl, rfl, rfl⟩

theorem recordProgress_advance (sess : Session) (work : String)
    (hlt : sess.current_step_index < sess.plan_steps.length) :
    (sess.recordProgress work).completed_steps
        = sess.completed_steps ++ [sess.plan_steps.getD sess.current_step_index ""]
    ∧ (sess.recordProgress work).current_step_index = sess.current_step_index + 1 := by
  unfold Session.recordProgress
  have hne : sess.plan_steps ≠ [] := by
    intro h
    rw [h] at hlt
    simp at hlt
  rw [if_pos ⟨hne, hlt⟩]
  exact ⟨rfl, rfl⟩

theorem recordProgress_stay (sess : Session) (work : String)
    (hge : ¬ (sess.plan_steps ≠ [] ∧ sess.current_step_index < sess.plan_steps.length)) :
    (sess.recordProgress work).completed_steps = sess.completed_steps
    ∧ (sess.recordProgress work).current_step_index = sess.current_step_index := by
  unfold Session.recordProgress
  rw [if_neg hge]
  exact ⟨rfl, rfl⟩

theorem recordProgress_take (sess : Session) (work : String)
    (hpre : sess.completed_steps = sess.plan_steps.take sess.current_step_index)
    (hle : sess.current_step_index ≤ sess.plan_steps.length) :
    (sess.recordProgress work).current_step_index
        = min (sess.current_step_index + 1) sess.plan_steps.length
    ∧ (sess.recordProgress work).completed_steps
        = sess.plan_steps.take ((sess.recordProgress work).current_step_index) := by
  by_cases hlt : sess.current_step_index < sess.plan_steps.length
  · obtain ⟨hc, hi⟩ := recordProgress_advance sess work hlt
    refine ⟨by rw [hi]; omega, ?_⟩
    rw [hc, hi, hpre, List.getD_eq_getElem _ _ hlt, ← List.take_concat_get _ _ hlt]
    simp
  · have hge : ¬ (sess.plan_steps ≠ [] ∧ sess.current_step_index < sess.plan_steps.length) := by
      rintro ⟨-, h⟩
      exact hlt h
    obtain ⟨hc, hi⟩ := recordProgress_stay sess work hge
    refine ⟨by rw [hi]; omega, by rw [hc, hi, hpre]⟩

/-- The effect of a run of `proceed` calls on a current session whose
completed steps coincide with the step cursor. -/
theorem runProceeds_state (ws : List String) : ∀ (w : World) (id : String) (sess : Session),
    w.currentSession = some (id, sess) →
    (sess.state = .plan_submitted ∨ sess.state = .in_progress) →
    sess.completed_steps = sess.plan_steps.take sess.current_step_index →
    sess.current_step_index ≤ sess.plan_steps.length →
    ∃ sess', (runProceeds w ws).currentSession = some (id, sess') ∧
      sess'.plan_steps = sess.plan_steps ∧
      sess'.current_step_index
        = min (sess.current_step_index + ws.length) sess.plan_steps.length ∧
      sess'.completed_steps = sess.plan_steps.take sess'.current_step_index ∧
      sess'.progress = sess.progress ++ ws ∧
      sess'.state = (if ws.isEmpty then sess.state else .in_progress) := by
  induction ws with
  | nil =>
    intro w id sess h hst hpre hle
    exact ⟨sess, h, rfl, (Nat.min_eq_left hle).symm, hpre, (List.append_nil _).symm, rfl⟩
  | cons work rest ih =>
    intro w id sess h hst hpre hle
    have hstep := proceed_step work h hst
    have hw1 : (handle_proceed w work).1
        = { w with active_sessions := updateAssoc w.active_sessions id (sess.recordProgress work) } := by
      rw [hstep]
    have hcur1 : ((handle_proceed w work).1).currentSession
        = some (id, sess.recordProgress work) := by
      rw [hw1]
      exact currentSession_update h _
    obtain ⟨hidx, hcomp⟩ := recordProgress_take sess work hpre hle
    obtain ⟨hplan, hprog, hstate⟩ := recordProgress_plan sess work
    have hle1 : (sess.recordProgress work).current_step_index
        ≤ (sess.recordProgress work).plan_steps.length := by
      rw [hidx, hplan]
      omega
    obtain ⟨sess', h1, h2, h3, h4, h5, h6⟩ :=
      ih ((handle_proceed w work).1) id (sess.recordProgress work) hcur1 (.inr hstate)
        (by rw [hplan]; exact hcomp) hle1
    refine ⟨sess', h1, by rw [h2, hplan], ?_, by rw [h4, hplan], ?_, ?_⟩
    · rw [h3, hidx, hplan]
      simp only [List.length_cons]
      omega
    · rw [h5, hprog]
      simp
    · rw [h6, hstate]
      cases rest <;> simp

/-- C5: after an accepted plan of length `N = l.length`, each `proceed` below
the cursor limit appends exactly one completed step and increments the cursor;
the `N`-th `proceed` response reports `next_step = none`; `proceed` calls
beyond `N` still record progress but leave the cursor at `N`; `end_job` fails
with `WORKFLOW_VIOLATION` while fewer than `N` steps are completed; and after
exactly `N` proceeds `end_job` succeeds on substantial handoff content. -/
theorem C5_exactly_N_proceeds (w w₁ : World) (r : PlanResp) (l : List String)
    (hplan : handle_plan_setup w (.steps l) = (w₁, .ok r)) :
    (∀ (w' : World) (id : String) (sess : Session) (work : String),
        w'.currentSession = some (id, sess) →
        (sess.state = .plan_submitted ∨ sess.state = .in_progress) →
        sess.current_step_index < sess.plan_steps.length →
        ∃ sess', (handle_proceed w' work).1.currentSession = some (id, sess') ∧
          sess'.completed_steps
            = sess.completed_steps ++ [sess.plan_steps.getD sess.current_step_index ""] ∧
          sess'.current_step_index = sess.current_step_index + 1)
    ∧ (∀ (ws : List String) (work : String), ws.length = l.length - 1 →
        ∃ resp, (handle_proceed (runProceeds w₁ ws) work).2 = .ok resp ∧
          resp.next_step = none)
    ∧ (∀ (ws : List String) (work : String), l.length ≤ ws.length →
        ∃ id sess sess', (runProceeds w₁ ws).currentSession = some (id, sess) ∧
          sess.current_step_index = l.length ∧
          (handle_proceed (runProceeds w₁ ws) work).1.currentSession = some (id, sess') ∧
          sess'.progress = sess.progress ++ [work] ∧
          sess'.current_step_index = l.length)
    ∧ (∀ (ws : List String) (pr : List String) (summary content : String),
        ws.length < l.length →
        ∃ e, (handle_end_job pr (runProceeds w₁ ws) summary content).2 = .error e ∧
          e.code = "WORKFLOW_VIOLATION")
    ∧ (∀ (ws : List String) (pr : List String) (summary content : String),
        ws.length = l.length → content ≠ "" → 50 ≤ (pyStrip content).length →
        ∃ resp, (handle_end_job pr (runProceeds w₁ ws) summary content).2 = .ok resp) := by
  obtain ⟨id, sess, l', heq, hne', hc, hstate, hw₁⟩ := plan_setup_ok hplan
  cases heq
  have hne : l ≠ [] := hne'
  have hNpos : 0 < l.length := List.length_pos_of_ne_nil hne
  have hcur₁ : w₁.currentSession = some (id, sess.withPlan l) := by
    rw [hw₁]
    exact currentSession_update hc _
  have hrun : ∀ ws : List String,
      ∃ sess', (runProceeds w₁ ws).currentSession = some (id, sess') ∧
        sess'.plan_steps = l ∧
        sess'.current_step_index = min ws.length l.length ∧
        sess'.completed_steps = l.take sess'.current_step_index ∧
        sess'.progress = sess.progress ++ ws ∧
        sess'.state = (if ws.isEmpty then WState.plan_submitted else WState.in_progress) := by
    intro ws
    obtain ⟨sess', h1, h2, h3, h4, h5, h6⟩ :=
      runProceeds_state ws w₁ id (sess.withPlan l) hcur₁ (.inl rfl) rfl (Nat.zero_le _)
    exact ⟨sess', h1, h2, by simpa [Session.withPlan] using h3, h4, h5, h6⟩
  refine ⟨?_, ?_, ?_, ?_, ?_⟩
  · -- one proceed advances exactly one step
    intro w' id' sess₀ work hcur hst hlt
    have hstep := proceed_step work hcur hst
    refine ⟨sess₀.recordProgress work, ?_, (recordProgress_advance _ _ hlt).1,
      (recordProgress_advance _ _ hlt).2⟩
    rw [congrArg Prod.fst hstep]
    exact currentSession_update hcur _
  · -- the N-th proceed reports next_step = none
    intro ws work hlen
    obtain ⟨sess', h1, h2, h3, h4, h5, h6⟩ := hrun ws
    have hst' : sess'.state = .plan_submitted ∨ sess'.state = .in_progress := by
      rw [h6]
      split
      · exact .inl rfl
      · exact .inr rfl
    have hstep := proceed_step work h1 hst'
    have hidx : sess'.current_step_index = l.length - 1 := by
      rw [h3, hlen]
      omega
    have hlt : sess'.current_step_index < sess'.plan_steps.length := by
      rw [hidx, h2]
      omega
    refine ⟨_, by rw [hstep], ?_⟩
    dsimp only
    obtain ⟨-, hi⟩ := recordProgress_advance sess' work hlt
    rw [(recordProgress_plan sess' work).1, hi, hidx, h2, List.get?_eq_none]
    omega
  · -- proceeds beyond N record progress but do not advance the cursor
    intro ws work hge
    obtain ⟨sess', h1, h2, h3, h4, h5, h6⟩ := hrun ws
    have hidx : sess'.current_step_index = l.length := by
      rw [h3]
      omega
    have hst' : sess'.state = .plan_submitted ∨ sess'.state = .in_progress := by
      rw [h6]
      split
      · exact .inl rfl
      · exact .inr rfl
    have hstep := proceed_step work h1 hst'
    have hstay := recordProgress_stay sess' work (by rw [hidx, h2]; omega)
    refine ⟨id, sess', sess'.recordProgress work, h1, hidx, ?_,
      (recordProgress_plan sess' work).2.1, by rw [hstay.2, hidx]⟩
    rw [congrArg Prod.fst hstep]
    exact currentSession_update h1 _
  · -- end_job fails with WORKFLOW_VIOLATION below N completed steps
    intro ws pr summary content hlt
    obtain ⟨sess', h1, h2, h3, h4, h5, h6⟩ := hrun ws
    unfold handle_end_job
    rw [h1]
    dsimp only
    by_cases hws : ws.isEmpty
    · have hstate' : sess'.state ≠ .in_progress := by
        rw [h6, if_pos hws]
        simp
      rw [if_pos hstate']
      exact ⟨_, rfl, rfl⟩
    · have hstate' : ¬ sess'.state ≠ .in_progress := by
        rw [h6, if_neg hws]
        simp
      rw [if_neg hstate']
      have hprog : ¬ sess'.progress.isEmpty = true := by
        rw [h5, List.isEmpty_eq_true, List.append_eq_nil]
        rintro ⟨-, hwnil⟩
        rw [hwnil] at hws
        exact hws rfl
      rw [if_neg hprog]
      have hidx : sess'.current_step_index = ws.length := by
        rw [h3]
        omega
      have hcond : sess'.plan_steps ≠ [] ∧
          sess'.completed_steps.length < sess'.plan_steps.length := by
        refine ⟨by rw [h2]; exact hne, ?_⟩
        rw [h4, h2, List.length_take, hidx]
        omega
      rw [if_pos hcond]
      exact ⟨_, rfl, rfl⟩
  · -- after exactly N proceeds, end_job succeeds on substantial content
    intro ws pr summary content hlen hc0 hc50
    obtain ⟨sess', h1, h2, h3, h4, h5, h6⟩ := hrun ws
    have hwsne : ws.isEmpty = false := by
      cases hwe : ws.isEmpty
      · rfl
      · exfalso
        rw [List.isEmpty_eq_true] at hwe
        rw [hwe] at hlen
        simp at hlen
        omega
    unfold handle_end_job
    rw [h1]
    dsimp only
    have hstate' : ¬ sess'.state ≠ .in_progress := by
      rw [h6, hwsne]
      simp
    rw [if_neg hstate']
    have hprog : ¬ sess'.progress.isEmpty = true := by
      rw [h5, List.isEmpty_eq_true, List.append_eq_nil]
      rintro ⟨-, hwnil⟩
      rw [hwnil] at hwsne
      simp at hwsne
    rw [if_neg hprog]
    have hidx : sess'.current_step_index = l.length := by
      rw [h3, hlen]
      omega
    have hcond : ¬ (sess'.plan_steps ≠ [] ∧
        sess'.completed_steps.length < sess'.plan_steps.length) := by
      rintro ⟨-, hlt'⟩
      rw [h4, h2, List.length_take, hidx] at hlt'
      omega
    rw [if_neg hcond]
    have hcontent : ¬ (content = "" ∨ (pyStrip content).length < 50) := by
      rintro (h | h)
      · exact hc0 h
      · omega
    rw [if_neg hcontent]
    exact ⟨_, rfl⟩

/-- A fresh started session, the accepted two-step plan that follows, and the
response `plan_setup` returns for it. -/
def c5W0 : World := ⟨[("s1", newSession "g")], some "s1", [], ⟨[], []⟩⟩

def c5W1 : World :=
  ⟨[("s1", ⟨.plan_submitted, "g", ["a", "b"], [], 0, [], [], none, none⟩)],
   some "s1", [], ⟨[], []⟩⟩

def c5R : PlanResp := ⟨"plan_accepted", "s1", 2, ["a", "b"], some "Step 1/2: a"⟩

/-- C5 at a concrete input: the accepted plan `["a", "b"]`. -/
theorem C5_witness :
    (∀ (w' : World) (id : String) (sess : Session) (work : String),
        w'.currentSession = some (id, sess) →
        (sess.state = .plan_submitted ∨ sess.state = .in_progress) →
        sess.current_step_index < sess.plan_steps.length →
        ∃ sess', (handle_proceed w' work).1.currentSession = some (id, sess') ∧
          sess'.completed_steps
            = sess.completed_steps ++ [sess.plan_steps.getD sess.current_step_index ""] ∧
          sess'.current_step_index = sess.current_step_index + 1)
    ∧ (∀ (ws : List String) (work : String), ws.length = ["a", "b"].length - 1 →
        ∃ resp, (handle_proceed (runProceeds c5W1 ws) work).2 = .ok resp ∧
          resp.next_step = none)
    ∧ (∀ (ws : List String) (work : String), ["a", "b"].length ≤ ws.length →
        ∃ id sess sess', (runProceeds c5W1 ws).currentSession = some (id, sess) ∧
          sess.current_step_index = ["a", "b"].length ∧
          (handle_proceed (runProceeds c5W1 ws) work).1.currentSession = some (id, sess') ∧
          sess'.progress = sess.progress ++ [work] ∧
          sess'.current_step_index = ["a", "b"].length)
    ∧ (∀ (ws : List String) (pr : List String) (summary content : String),
        ws.length < ["a", "b"].length →
        ∃ e, (handle_end_job pr (runProceeds c5W1 ws) summary content).2 = .error e ∧
          e.code = "WORKFLOW_VIOLATION")
    ∧ (∀ (ws : List String) (pr : List String) (summary content : String),
        ws.length = ["a", "b"].length → content ≠ "" → 50 ≤ (pyStrip content).length →
        ∃ resp, (handle_end_job pr (runProceeds c5W1 ws) summary content).2 = .ok resp) :=
  C5_exactly_N_proceeds c5W0 c5W1 c5R ["a", "b"] rfl

/-! ## C7 -/

/-- The per-session invariant the workflow maintains: the completed steps are
exactly the first `current_step_index` planned steps, and the cursor is in
range. -/
def SessionOK (s : Session) : Prop :=
  s.completed_steps = s.plan_steps.take s.current_step_index ∧
  s.current_step_index ≤ s.plan_steps.length

/-- The world-level invariant: every live session satisfies `SessionOK`, and
every archived one additionally has at least one progress entry. -/
def WorldInv (w : World) : Prop :=
  (∀ kv ∈ w.active_sessions, SessionOK kv.2) ∧
  (∀ kv ∈ w.history, SessionOK kv.2 ∧ kv.2.progress ≠ [])

theorem WorldInv_call (cfg : Config) (w : World) (c : ToolCall) (hw : WorldInv w) :
    WorldInv (call_tool cfg w c).1 := by
  obtain ⟨hact, hhist⟩ := hw
  cases c with
  | start_work sid goal =>
    unfold call_tool handle_start_work
    dsimp only
    refine ⟨?_, hhist⟩
    intro kv hkv
    rcases mem_updateAssoc hkv with rfl | hkv'
    · exact ⟨rfl, Nat.zero_le _⟩
    · exact hact _ hkv'
  | plan_setup arg =>
    unfold call_tool handle_plan_setup
    dsimp only
    cases hc : w.currentSession with
    | none => exact ⟨hact, hhist⟩
    | some pair =>
      obtain ⟨id, sess⟩ := pair
      dsimp only
      split
      · exact ⟨hact, hhist⟩
      · cases arg with
        | absent => exact ⟨hact, hhist⟩
        | notList => exact ⟨hact, hhist⟩
        | steps l =>
          dsimp only
          split
          · exact ⟨hact, hhist⟩
          · refine ⟨?_, hhist⟩
            intro kv hkv
            rcases mem_updateAssoc hkv with rfl | hkv'
            · exact ⟨rfl, Nat.zero_le _⟩
            · exact hact _ hkv'
  | proceed work =>
    unfold call_tool handle_proceed
    dsimp only
    cases hc : w.currentSession with
    | none => exact ⟨hact, hhist⟩
    | some pair =>
      obtain ⟨id, sess⟩ := pair
      dsimp only
      split
      · exact ⟨hact, hhist⟩
      · refine ⟨?_, hhist⟩
        intro kv hkv
        rcases mem_updateAssoc hkv with rfl | hkv'
        · have hsess : SessionOK sess := hact _ (currentSession_mem hc)
          obtain ⟨hidx, hcomp⟩ := recordProgress_take sess work hsess.1 hsess.2
          refine ⟨?_, ?_⟩
          · rw [(recordProgress_plan sess work).1]
            exact hcomp
          · rw [(recordProgress_plan sess work).1, hidx]
            omega
        · exact hact _ hkv'
  | report_issue d a =>
    unfold call_tool handle_report_issue
    dsimp only
    cases hc : w.currentSession with
    | none => exact ⟨hact, hhist⟩
    | some pair =>
      obtain ⟨id, sess⟩ := pair
      dsimp only
      refine ⟨?_, hhist⟩
      intro kv hkv
      rcases mem_updateAssoc hkv with rfl | hkv'
      · have hsess : SessionOK sess := hact _ (currentSession_mem hc)
        exact ⟨hsess.1, hsess.2⟩
      · exact hact _ hkv'
  | end_job summary content =>
    unfold call_tool handle_end_job
    dsimp only
    cases hc : w.currentSession with
    | none => exact ⟨hact, hhist⟩
    | some pair =>
      obtain ⟨id, sess⟩ := pair
      dsimp only
      split
      · exact ⟨hact, hhist⟩
      · split
        · exact ⟨hact, hhist⟩
        · rename_i hprogress
          split
          · exact ⟨hact, hhist⟩
          · split
            · exact ⟨hact, hhist⟩
            · have hsess : SessionOK sess := hact _ (currentSession_mem hc)
              refine ⟨?_, ?_⟩
              · intro kv hkv
                rcases mem_updateAssoc hkv with rfl | hkv'
                · exact hsess
                · exact hact _ hkv'
              · intro kv hkv
                rcases mem_updateAssoc hkv with rfl | hkv'
                · refine ⟨hsess, ?_⟩
                  intro hnil
                  have hnil' : sess.progress = [] := hnil
                  apply hprogress
                  rw [hnil']
                  rfl
                · exact hhist _ hkv'
  | read_file p => exact ⟨hact, hhist⟩
  | write_file p ct => exact ⟨hact, hhist⟩
  | list_files p => exact ⟨hact, hhist⟩
  | search_files q p => exact ⟨hact, hhist⟩
  | append_file p ct => exact ⟨hact, hhist⟩
  | other name => exact ⟨hact, hhist⟩

theorem WorldInv_runCalls (cfg : Config) (calls : List ToolCall) :
    ∀ w : World, WorldInv w → WorldInv (runCalls cfg w calls) := by
  induction calls with
  | nil => exact fun w hw => hw
  | cons c rest ih => exact fun w hw => ih _ (WorldInv_call cfg w c hw)

theorem initWorld_inv (fs : FS) : WorldInv (initWorld fs) := by
  exact ⟨fun kv h => absurd h (List.not_mem_nil _), fun kv h => absurd h (List.not_mem_nil _)⟩

/-- C7, amended: in every world reachable by a sequence of tool calls, at most
one session is current (the current pointer holds at most one identifier),
`current_step_index` never exceeds `len(plan_steps)`, `completed_steps` is a
prefix of `plan_steps` in the same order — equal to the whole plan once every
step is completed, which is why the claim's "strict prefix" had to be relaxed
— and no archived session lacks a progress entry. -/
theorem C7_amended_session_invariants (cfg : Config) (fs : FS) (calls : List ToolCall) :
    (∀ id₁ id₂, (runCalls cfg (initWorld fs) calls).current_session_id = some id₁ →
        (runCalls cfg (initWorld fs) calls).current_session_id = some id₂ → id₁ = id₂)
    ∧ (∀ kv ∈ (runCalls cfg (initWorld fs) calls).active_sessions,
        kv.2.completed_steps <+: kv.2.plan_steps
        ∧ kv.2.current_step_index ≤ kv.2.plan_steps.length)
    ∧ (∀ kv ∈ (runCalls cfg (initWorld fs) calls).history,
        kv.2.completed_steps <+: kv.2.plan_steps ∧ kv.2.progress ≠ []) := by
  have hinv := WorldInv_runCalls cfg calls (initWorld fs) (initWorld_inv fs)
  refine ⟨?_, ?_, ?_⟩
  · intro id₁ id₂ h1 h2
    rw [h1] at h2
    exact Option.some.inj h2
  · intro kv hkv
    obtain ⟨hcomp, hle⟩ := hinv.1 _ hkv
    exact ⟨hcomp ▸ List.take_prefix _ _, hle⟩
  · intro kv hkv
    obtain ⟨⟨hcomp, -⟩, hprog⟩ := hinv.2 _ hkv
    exact ⟨hcomp ▸ List.take_prefix _ _, hprog⟩

/-- The runs of the C7 counterexample: start, a one-step plan, one proceed. -/
def c7Calls : List ToolCall :=
  [.start_work "s1" "g", .plan_setup (.steps ["a"]), .proceed "done"]

def c7Sess : Session := ⟨.in_progress, "g", ["a"], ["a"], 1, ["done"], [], none, none⟩

/-- C7 counterexample: after completing the whole one-step plan — a reachable
state — `completed_steps` equals `plan_steps`, so it is a prefix but not a
*strict* prefix, refuting the claim as stated. -/
theorem C7_counterexample :
    (runCalls ⟨["project"], ["project", "docs"]⟩ (initWorld ⟨[], []⟩) c7Calls).active_sessions
      = [("s1", c7Sess)]
    ∧ c7Sess.completed_steps = c7Sess.plan_steps
    ∧ ¬ (c7Sess.completed_steps <+: c7Sess.plan_steps
          ∧ c7Sess.completed_steps ≠ c7Sess.plan_steps) :=
  ⟨rfl, rfl, fun h => h.2 rfl⟩

end AgentHandoff
